import Mathlib

/-!
Verification development for the bunup CLI (`packages/cli/src/init.ts`,
`packages/cli/src/create.ts`).  JavaScript objects are modelled as
insertion-ordered association lists; JSON values as an inductive type;
each interactive prompt is modelled by the pure validator it runs and by
the sequence of answers the user gives.
-/

namespace BunupCli

/-- A JSON value as it occurs in a package manifest.  The `scripts` field of
a manifest is a `table` (an object mapping script names to command strings:
the code casts it to `Record<string, string>`); other top-level fields may be
any constructor.  The merge never inspects non-`scripts` fields, so nesting
beyond one object level is not needed by any claim. -/
inductive JVal where
  | str (s : String)
  | num (n : Int)
  | boolv (b : Bool)
  | jnull
  | table (entries : List (String × String))
deriving DecidableEq

/-- First-occurrence lookup in an insertion-ordered association list:
JavaScript property access `m[k]` (with `none` for `undefined`). -/
def jsGet {β : Type} : List (String × β) → String → Option β
  | [], _ => none
  | p :: rest, k => if p.1 = k then some p.2 else jsGet rest k

/-- JavaScript property assignment `m[k] = v` on an insertion-ordered object:
overwrite the existing key in place, otherwise append the new key at the end. -/
def setKey {β : Type} : List (String × β) → String → β → List (String × β)
  | [], k, v => [(k, v)]
  | p :: rest, k, v => if p.1 = k then (k, v) :: rest else p :: setKey rest k v

/-- JavaScript object spread `{...a, ...b}`: copy the own enumerable
properties of `b` onto `a` in order. -/
def jsSpread {β : Type} (a b : List (String × β)) : List (String × β) :=
  b.foldl (fun acc p => setKey acc p.1 p.2) a

/-- `(packageJsonConfig?.scripts ?? {}) as Record<string, string>`: the
existing scripts table of a manifest, the empty table when the field is
absent (a non-object `scripts` value is outside the modelled range). -/
def getScripts (fields : List (String × JVal)) : List (String × String) :=
  match jsGet fields "scripts" with
  | some (JVal.table es) => es
  | _ => []

/-- JavaScript truthiness of `m[k]` for a string-valued table: `undefined`
(missing key) and the empty string are falsy, every other string is truthy. -/
def jsTruthyStr : Option String → Bool
  | some s => !(s == "")
  | none => false

/-- `Object.keys(newScripts).filter((script) => existingScripts[script])`
from `handleBuildScripts` / `handleWorkspaceBuildScripts`. -/
def conflictingScripts (newScripts existingScripts : List (String × String)) :
    List String :=
  (newScripts.map Prod.fst).filter (fun script => jsTruthyStr (jsGet existingScripts script))

/-- `createBuildScripts` from `init.ts`. -/
def createBuildScripts : List (String × String) :=
  [("build", "bunup"), ("dev", "bunup --watch")]

/-- `createWorkspaceBuildScripts` from `init.ts`. -/
def createWorkspaceBuildScripts : List (String × String) :=
  [("build", "bunup"), ("dev", "bunup --watch")]

/-- One escaped character of a JSON string literal, as `JSON.stringify`
produces it (quote, backslash and the common control characters). -/
def jsonEscapeChar (c : Char) : String :=
  if c = '"' then "\\\""
  else if c = '\\' then "\\\\"
  else if c = '\n' then "\\n"
  else if c = '\t' then "\\t"
  else if c = '\r' then "\\r"
  else String.singleton c

/-- A JSON string literal with its quotes. -/
def jsonQuote (s : String) : String :=
  "\"" ++ String.join (s.data.map jsonEscapeChar) ++ "\""

/-- Serialization of one manifest value at nesting depth one, as
`JSON.stringify(-, null, 2)` renders it (two spaces per indentation level). -/
def jsonStringifyVal : JVal → String
  | JVal.str s => jsonQuote s
  | JVal.num n => toString n
  | JVal.boolv b => if b then "true" else "false"
  | JVal.jnull => "null"
  | JVal.table [] => "{}"
  | JVal.table es =>
      "\x7b\n" ++
        String.intercalate ",\n"
          (es.map (fun p => "    " ++ jsonQuote p.1 ++ ": " ++ jsonQuote p.2)) ++
        "\n  \x7d"

/-- `JSON.stringify(updatedConfig, null, 2)`: the whole manifest object
serialized with two-space indentation, keys in insertion order. -/
def jsonStringify2 (fields : List (String × JVal)) : String :=
  match fields with
  | [] => "{}"
  | es =>
      "\x7b\n" ++
        String.intercalate ",\n"
          (es.map (fun p => "  " ++ jsonQuote p.1 ++ ": " ++ jsonStringifyVal p.2)) ++
        "\n\x7d"

/-- Observable outcome of one `handleBuildScripts` call: the manifest object
the file holds afterwards, whether the file was rewritten, whether the
conflict confirmation was shown, the informational message logged (if any),
and the exact string written (if any). -/
structure MergeResult where
  config : List (String × JVal)
  wrote : Bool
  prompted : Bool
  info : Option String
  written : Option String
deriving DecidableEq

/-- `handleBuildScripts` from `init.ts`.  `packageJsonConfig` is the loaded
manifest object; `shouldOverride` is the user's answer to the conflict
confirmation (consulted only when at least one conflict exists). -/
def handleBuildScripts (packageJsonConfig : List (String × JVal))
    (shouldOverride : Bool) : MergeResult :=
  let existingScripts := getScripts packageJsonConfig
  let newScripts := createBuildScripts
  let conflicting := conflictingScripts newScripts existingScripts
  let updatedConfig :=
    setKey packageJsonConfig "scripts" (JVal.table (jsSpread existingScripts newScripts))
  if conflicting.length > 0 then
    if shouldOverride then
      ⟨updatedConfig, true, true, none, some (jsonStringify2 updatedConfig)⟩
    else
      ⟨packageJsonConfig, false, true,
        some "Skipped adding build scripts to avoid conflicts.", none⟩
  else
    ⟨updatedConfig, true, false, none, some (jsonStringify2 updatedConfig)⟩

/-- `handleWorkspaceBuildScripts` from `init.ts` (same structure, workspace
script pair). -/
def handleWorkspaceBuildScripts (packageJsonConfig : List (String × JVal))
    (shouldOverride : Bool) : MergeResult :=
  let existingScripts := getScripts packageJsonConfig
  let newScripts := createWorkspaceBuildScripts
  let conflicting := conflictingScripts newScripts existingScripts
  let updatedConfig :=
    setKey packageJsonConfig "scripts" (JVal.table (jsSpread existingScripts newScripts))
  if conflicting.length > 0 then
    if shouldOverride then
      ⟨updatedConfig, true, true, none, some (jsonStringify2 updatedConfig)⟩
    else
      ⟨packageJsonConfig, false, true,
        some "Skipped adding build scripts to avoid conflicts.", none⟩
  else
    ⟨updatedConfig, true, false, none, some (jsonStringify2 updatedConfig)⟩

/-! ### Association-list lemmas shared by the merge claims -/

theorem jsGet_setKey_self {β : Type} (m : List (String × β)) (k : String) (v : β) :
    jsGet (setKey m k v) k = some v := by
  induction m with
  | nil => simp [setKey, jsGet]
  | cons p rest ih =>
      by_cases h : p.1 = k
      · simp [setKey, jsGet, h]
      · simp [setKey, jsGet, h, ih]

theorem jsGet_setKey_ne {β : Type} (m : List (String × β)) (k k' : String) (v : β)
    (h : k' ≠ k) : jsGet (setKey m k v) k' = jsGet m k' := by
  have hkk : ¬ k = k' := fun hc => h hc.symm
  induction m with
  | nil => simp [setKey, jsGet, hkk]
  | cons p rest ih =>
      by_cases hp : p.1 = k
      · subst hp
        simp [setKey, jsGet, hkk]
      · by_cases hp' : p.1 = k'
        · simp [setKey, jsGet, hp, hp', h]
        · simp [setKey, jsGet, hp, hp', ih]

theorem setKey_of_jsGet {β : Type} (m : List (String × β)) (k : String) (v : β)
    (h : jsGet m k = some v) : setKey m k v = m := by
  induction m with
  | nil => simp [jsGet] at h
  | cons p rest ih =>
      by_cases hp : p.1 = k
      · subst hp
        simp [jsGet] at h
        simp [setKey, ← h]
      · simp [jsGet, hp] at h
        simp [setKey, hp, ih h]

theorem keys_setKey {β : Type} (m : List (String × β)) (k : String) (v : β) :
    (setKey m k v).map Prod.fst =
      if k ∈ m.map Prod.fst then m.map Prod.fst else m.map Prod.fst ++ [k] := by
  induction m with
  | nil => simp [setKey]
  | cons p rest ih =>
      by_cases hp : p.1 = k
      · subst hp
        simp [setKey]
      · have hne : ¬ k = p.1 := fun hc => hp hc.symm
        by_cases hm : k ∈ rest.map Prod.fst
        · simp [setKey, hp, ih, hm, hne]
        · simp [setKey, hp, ih, hm, hne]

theorem nodup_keys_setKey {β : Type} (m : List (String × β)) (k : String) (v : β)
    (h : (m.map Prod.fst).Nodup) : ((setKey m k v).map Prod.fst).Nodup := by
  rw [keys_setKey]
  by_cases hm : k ∈ m.map Prod.fst
  · simpa [hm] using h
  · rw [if_neg hm, List.nodup_append]
    refine ⟨h, List.nodup_singleton k, ?_⟩
    intro a ha hb
    rw [List.mem_singleton] at hb
    exact hm (hb ▸ ha)

theorem setKey_eq_of_nodup {β : Type} (m : List (String × β)) (k : String) (v : β)
    (h : (m.map Prod.fst).Nodup) :
    setKey m k v =
      m.map (fun p => if p.1 = k then (k, v) else p) ++
        (if k ∈ m.map Prod.fst then [] else [(k, v)]) := by
  induction m with
  | nil => simp [setKey]
  | cons p rest ih =>
      rw [List.map_cons] at h
      have h1 := (List.nodup_cons.mp h).1
      have h2 := (List.nodup_cons.mp h).2
      by_cases hp : p.1 = k
      · subst hp
        have hid : rest.map (fun q => if q.1 = p.1 then (p.1, v) else q) = rest := by
          have hmc : rest.map (fun q => if q.1 = p.1 then (p.1, v) else q)
              = rest.map (fun q => q) := by
            refine List.map_congr_left ?_
            intro q hq
            have hq1 : ¬ q.1 = p.1 := by
              intro hc
              exact h1 (hc ▸ List.mem_map_of_mem Prod.fst hq)
            simp [hq1]
          simpa using hmc
        simp [setKey, hid]
      · have hne : ¬ k = p.1 := fun hc => hp hc.symm
        by_cases hm : k ∈ rest.map Prod.fst
        · simp [setKey, hp, ih h2, hm, hne]
        · simp [setKey, hp, ih h2, hm, hne]

theorem filter_ne_setKey {β : Type} (m : List (String × β)) (k : String) (v : β) :
    (setKey m k v).filter (fun p => p.1 != k) = m.filter (fun p => p.1 != k) := by
  induction m with
  | nil => simp [setKey]
  | cons p rest ih =>
      by_cases hp : p.1 = k
      · simp [setKey, hp]
      · simp [setKey, hp, ih]

/-! ### Shared facts about `handleBuildScripts` -/

theorem handleBuildScripts_config_of_proceed (cfg : List (String × JVal)) (o : Bool)
    (hpr : conflictingScripts createBuildScripts (getScripts cfg) = [] ∨ o = true) :
    (handleBuildScripts cfg o).config =
      setKey cfg "scripts" (JVal.table (jsSpread (getScripts cfg) createBuildScripts)) := by
  rcases hpr with h | h
  · simp [handleBuildScripts, h]
  · subst h
    simp only [handleBuildScripts]
    split
    · rfl
    · rfl

theorem getScripts_setKey (cfg : List (String × JVal)) (t : List (String × String)) :
    getScripts (setKey cfg "scripts" (JVal.table t)) = t := by
  unfold getScripts
  rw [jsGet_setKey_self]

/-! ### Claim theorems: manifest script merge -/

/-- C1 counterexample: with existing scripts `{build: ""}` the key `build` is
present in the table (with the empty string as its value), yet the merge does
not classify it as conflicting — the code's conflict test is JavaScript
truthiness, not key presence, so "present with any value" is refuted. -/
theorem conflict_empty_value_not_flagged :
    ¬ ("build" ∈ conflictingScripts createBuildScripts [("build", "")] ↔
        (jsGet [("build", "")] "build").isSome = true) := by decide

/-- C1 (amended): a new script key is classified as conflicting if and only if
it is present in the existing scripts table with a non-empty (truthy) value;
a key present with the empty string as its value is not flagged. -/
theorem conflict_iff_present_truthy (existing : List (String × String)) (k : String) :
    k ∈ conflictingScripts createBuildScripts existing ↔
      k ∈ createBuildScripts.map Prod.fst ∧
        ∃ v, jsGet existing k = some v ∧ v ≠ "" := by
  unfold conflictingScripts
  rw [List.mem_filter]
  constructor
  · rintro ⟨hk, ht⟩
    refine ⟨hk, ?_⟩
    cases hg : jsGet existing k with
    | none => rw [hg] at ht; simp [jsTruthyStr] at ht
    | some v =>
        rw [hg] at ht
        refine ⟨v, rfl, ?_⟩
        simpa [jsTruthyStr] using ht
  · rintro ⟨hk, v, hg, hv⟩
    exact ⟨hk, by simp [hg, jsTruthyStr, hv]⟩

/-- C2: when at least one script key conflicts and the user declines the
confirmation, the merge is aborted entirely: the manifest is returned exactly
as it was (no partial merge, nothing written), a single confirmation was
shown, and the informational skip message is logged while the flow returns
normally. -/
theorem conflict_decline_aborts_merge (cfg : List (String × JVal))
    (h : conflictingScripts createBuildScripts (getScripts cfg) ≠ []) :
    handleBuildScripts cfg false =
      ⟨cfg, false, true, some "Skipped adding build scripts to avoid conflicts.", none⟩ := by
  have hl : 0 < (conflictingScripts createBuildScripts (getScripts cfg)).length :=
    List.length_pos.mpr h
  simp [handleBuildScripts, hl]

/-- Witness for C2 at the spec's own example: existing scripts
`{build: "old"}`, user declines, manifest comes back unchanged. -/
theorem conflict_decline_aborts_merge_w :
    conflictingScripts createBuildScripts
        (getScripts [("scripts", JVal.table [("build", "old")])]) ≠ []
    ∧ handleBuildScripts [("scripts", JVal.table [("build", "old")])] false =
        ⟨[("scripts", JVal.table [("build", "old")])], false, true,
          some "Skipped adding build scripts to avoid conflicts.", none⟩ :=
  ⟨by decide, conflict_decline_aborts_merge _ (by decide)⟩

/-- C3: whenever the merge proceeds (no conflicts, or the user accepts), the
resulting scripts table is the original table in its original key order with
the colliding keys overwritten in place by the new values, followed by the
new keys (`build`, `dev`) that were not yet present, appended in that order. -/
theorem merge_scripts_characterization (cfg : List (String × JVal)) (o : Bool)
    (hnd : ((getScripts cfg).map Prod.fst).Nodup)
    (hpr : conflictingScripts createBuildScripts (getScripts cfg) = [] ∨ o = true) :
    getScripts (handleBuildScripts cfg o).config =
      (getScripts cfg).map
        (fun p => if p.1 = "build" then ("build", "bunup")
          else if p.1 = "dev" then ("dev", "bunup --watch") else p) ++
      ((if "build" ∈ (getScripts cfg).map Prod.fst then [] else [("build", "bunup")]) ++
        (if "dev" ∈ (getScripts cfg).map Prod.fst then [] else [("dev", "bunup --watch")])) := by
  rw [handleBuildScripts_config_of_proceed cfg o hpr, getScripts_setKey]
  have hndA := nodup_keys_setKey (getScripts cfg) "build" "bunup" hnd
  have hdev : ("dev" ∈ (setKey (getScripts cfg) "build" "bunup").map Prod.fst)
      ↔ ("dev" ∈ (getScripts cfg).map Prod.fst) := by
    rw [keys_setKey]
    by_cases hb : "build" ∈ (getScripts cfg).map Prod.fst
    · simp [hb]
    · simp [hb]
  have hcomp : (getScripts cfg).map
        ((fun q => if q.1 = "dev" then ("dev", "bunup --watch") else q) ∘
          (fun p => if p.1 = "build" then ("build", "bunup") else p))
      = (getScripts cfg).map
        (fun p => if p.1 = "build" then ("build", "bunup")
          else if p.1 = "dev" then ("dev", "bunup --watch") else p) := by
    refine List.map_congr_left ?_
    intro p _
    by_cases h1 : p.1 = "build"
    · simp [h1]
    · by_cases h2 : p.1 = "dev"
      · simp [h1, h2]
      · simp [h1, h2]
  have hifb : ((if "build" ∈ (getScripts cfg).map Prod.fst then []
        else [("build", "bunup")]) : List (String × String)).map
          (fun q => if q.1 = "dev" then ("dev", "bunup --watch") else q)
      = (if "build" ∈ (getScripts cfg).map Prod.fst then [] else [("build", "bunup")]) := by
    by_cases hb : "build" ∈ (getScripts cfg).map Prod.fst
    · simp [hb]
    · simp [hb]
  calc jsSpread (getScripts cfg) createBuildScripts
      = setKey (setKey (getScripts cfg) "build" "bunup") "dev" "bunup --watch" := rfl
    _ = (setKey (getScripts cfg) "build" "bunup").map
          (fun q => if q.1 = "dev" then ("dev", "bunup --watch") else q) ++
        (if "dev" ∈ (setKey (getScripts cfg) "build" "bunup").map Prod.fst then []
          else [("dev", "bunup --watch")]) := setKey_eq_of_nodup _ _ _ hndA
    _ = (setKey (getScripts cfg) "build" "bunup").map
          (fun q => if q.1 = "dev" then ("dev", "bunup --watch") else q) ++
        (if "dev" ∈ (getScripts cfg).map Prod.fst then []
          else [("dev", "bunup --watch")]) := by simp only [hdev]
    _ = ((getScripts cfg).map (fun p => if p.1 = "build" then ("build", "bunup") else p) ++
          (if "build" ∈ (getScripts cfg).map Prod.fst then [] else [("build", "bunup")])).map
            (fun q => if q.1 = "dev" then ("dev", "bunup --watch") else q) ++
        (if "dev" ∈ (getScripts cfg).map Prod.fst then []
          else [("dev", "bunup --watch")]) := by
            rw [setKey_eq_of_nodup _ _ _ hnd]
    _ = ((getScripts cfg).map
            ((fun q => if q.1 = "dev" then ("dev", "bunup --watch") else q) ∘
              (fun p => if p.1 = "build" then ("build", "bunup") else p)) ++
          (if "build" ∈ (getScripts cfg).map Prod.fst then [] else [("build", "bunup")]).map
            (fun q => if q.1 = "dev" then ("dev", "bunup --watch") else q)) ++
        (if "dev" ∈ (getScripts cfg).map Prod.fst then []
          else [("dev", "bunup --watch")]) := by
            rw [List.map_append, List.map_map]
    _ = ((getScripts cfg).map
          (fun p => if p.1 = "build" then ("build", "bunup")
            else if p.1 = "dev" then ("dev", "bunup --watch") else p) ++
          (if "build" ∈ (getScripts cfg).map Prod.fst then [] else [("build", "bunup")])) ++
        (if "dev" ∈ (getScripts cfg).map Prod.fst then []
          else [("dev", "bunup --watch")]) := by rw [hcomp, hifb]
    _ = (getScripts cfg).map
          (fun p => if p.1 = "build" then ("build", "bunup")
            else if p.1 = "dev" then ("dev", "bunup --watch") else p) ++
        ((if "build" ∈ (getScripts cfg).map Prod.fst then [] else [("build", "bunup")]) ++
          (if "dev" ∈ (getScripts cfg).map Prod.fst then []
            else [("dev", "bunup --watch")])) := List.append_assoc _ _ _

/-- Witness for C3 at the spec's example: existing `{test: "x"}`, no
conflicts, result is `{test, build, dev}` in that order. -/
theorem merge_scripts_characterization_w :
    ((getScripts [("scripts", JVal.table [("test", "x")])]).map Prod.fst).Nodup
    ∧ conflictingScripts createBuildScripts
        (getScripts [("scripts", JVal.table [("test", "x")])]) = []
    ∧ getScripts (handleBuildScripts [("scripts", JVal.table [("test", "x")])] false).config
      = [("test", "x"), ("build", "bunup"), ("dev", "bunup --watch")] := by
  refine ⟨by decide, by decide, ?_⟩
  have h := merge_scripts_characterization [("scripts", JVal.table [("test", "x")])] false
    (by decide) (Or.inl (by decide))
  rw [h]
  decide

/-- C4: when the merge writes, only the `scripts` field of the manifest can
change — every other top-level field is carried over unchanged, in place —
and the written artifact is the whole manifest object serialized as JSON with
two-space indentation. -/
theorem merge_frame (cfg : List (String × JVal)) (o : Bool)
    (hw : (handleBuildScripts cfg o).wrote = true) :
    (handleBuildScripts cfg o).config.filter (fun p => p.1 != "scripts")
        = cfg.filter (fun p => p.1 != "scripts")
    ∧ (handleBuildScripts cfg o).written
        = some (jsonStringify2 (handleBuildScripts cfg o).config) := by
  by_cases hc : (conflictingScripts createBuildScripts (getScripts cfg)).length > 0
  · cases o with
    | false => simp [handleBuildScripts, hc] at hw
    | true =>
        simp only [handleBuildScripts, hc, if_pos, if_true]
        exact ⟨filter_ne_setKey _ _ _, trivial⟩
  · simp only [handleBuildScripts, hc, if_neg, if_false]
    exact ⟨filter_ne_setKey _ _ _, trivial⟩

/-- Witness for C4: a manifest with a `name` field and a `scripts` field;
the merge writes and `name` survives unchanged. -/
theorem merge_frame_w :
    (handleBuildScripts
        [("name", JVal.str "pkg"), ("scripts", JVal.table [("test", "x")])] false).wrote = true
    ∧ (handleBuildScripts
        [("name", JVal.str "pkg"), ("scripts", JVal.table [("test", "x")])] false).config.filter
          (fun p => p.1 != "scripts")
      = [("name", JVal.str "pkg"), ("scripts", JVal.table [("test", "x")])].filter
          (fun p => p.1 != "scripts") :=
  ⟨by decide,
    (merge_frame [("name", JVal.str "pkg"), ("scripts", JVal.table [("test", "x")])] false
      (by decide)).1⟩

/-- C5: the merge is idempotent under an accept-every-conflict policy —
running `handleBuildScripts` on its own output with `shouldOverride = true`
leaves the manifest unchanged. -/
theorem merge_idempotent (cfg : List (String × JVal)) :
    (handleBuildScripts (handleBuildScripts cfg true).config true).config
      = (handleBuildScripts cfg true).config := by
  have h1 : (handleBuildScripts cfg true).config
      = setKey cfg "scripts" (JVal.table (jsSpread (getScripts cfg) createBuildScripts)) :=
    handleBuildScripts_config_of_proceed cfg true (Or.inr rfl)
  have h2 : (handleBuildScripts (handleBuildScripts cfg true).config true).config
      = setKey (handleBuildScripts cfg true).config "scripts"
          (JVal.table (jsSpread (getScripts (handleBuildScripts cfg true).config)
            createBuildScripts)) :=
    handleBuildScripts_config_of_proceed _ true (Or.inr rfl)
  rw [h2, h1, getScripts_setKey]
  have hb : jsGet (jsSpread (getScripts cfg) createBuildScripts) "build" = some "bunup" := by
    show jsGet (setKey (setKey (getScripts cfg) "build" "bunup") "dev" "bunup --watch")
      "build" = _
    rw [jsGet_setKey_ne _ _ _ _ (by decide), jsGet_setKey_self]
  have hd : jsGet (jsSpread (getScripts cfg) createBuildScripts) "dev"
      = some "bunup --watch" := by
    show jsGet (setKey (setKey (getScripts cfg) "build" "bunup") "dev" "bunup --watch")
      "dev" = _
    rw [jsGet_setKey_self]
  have hs : jsSpread (jsSpread (getScripts cfg) createBuildScripts) createBuildScripts
      = jsSpread (getScripts cfg) createBuildScripts := by
    show setKey (setKey (jsSpread (getScripts cfg) createBuildScripts) "build" "bunup")
        "dev" "bunup --watch" = _
    rw [setKey_of_jsGet _ _ _ hb, setKey_of_jsGet _ _ _ hd]
  rw [hs]
  exact setKey_of_jsGet _ _ _ (jsGet_setKey_self cfg "scripts" _)

/-! ### Create flow: template descriptors and directory resolution (`create.ts`) -/

/-- `type TemplateVariant = 'basic' | 'full'` from `create.ts`. -/
inductive TemplateVariant where
  | basic
  | full
deriving DecidableEq

/-- One entry of a variant mapping: `{ dir: string }`. -/
structure VariantDir where
  dir : String
deriving DecidableEq

/-- A variant mapping as in the `Template` type: `basic` optional, `full`
required (the invariant "every descriptor must define a `full` variant"). -/
structure VariantMap where
  basic : Option VariantDir
  full : VariantDir
deriving DecidableEq

/-- The `Template` descriptor type from `create.ts`. -/
structure Template where
  type : String
  defaultName : String
  name : String
  description : String
  variants : VariantMap
  monorepo : Option VariantMap
  placeholders : List (String × String)
deriving DecidableEq

/-- JavaScript `map[variant]` on a variant mapping. -/
def variantLookup (m : VariantMap) : TemplateVariant → Option VariantDir
  | TemplateVariant.basic => m.basic
  | TemplateVariant.full => some m.full

/-- JavaScript `x?.dir || fallback`: the fallback is taken when the entry is
absent (`undefined`) and also when its `dir` is the empty string (falsy). -/
def jsOrDir (o : Option VariantDir) (fallback : String) : String :=
  match o with
  | some v => if v.dir = "" then fallback else v.dir
  | none => fallback

/-- `getTemplateDir` from `createProject` in `create.ts`. -/
def getTemplateDir (t : Template) (selectedVariant : TemplateVariant)
    (useMonorepo : Bool) : String :=
  match useMonorepo, t.monorepo with
  | true, some m => jsOrDir (variantLookup m selectedVariant) m.full.dir
  | _, _ => jsOrDir (variantLookup t.variants selectedVariant) t.variants.full.dir

/-- The directory-resolution rule exactly as the spec words it: use
`map[variant]`, falling back to `map.full` only "if that variant key is
absent" (spec-side definition, to be compared with `getTemplateDir`). -/
def specResolveDir (m : VariantMap) (v : TemplateVariant) : String :=
  match variantLookup m v with
  | some d => d.dir
  | none => m.full.dir

/-- The directory-resolution rule of the spec sentence applied at the flow
level (spec-side definition, to be compared with `getTemplateDir`). -/
def specGetTemplateDir (t : Template) (v : TemplateVariant) (useMonorepo : Bool) : String :=
  match useMonorepo, t.monorepo with
  | true, some m => specResolveDir m v
  | _, _ => specResolveDir t.variants v

/-- The resolution rule as amended: fall back to `full` when the variant key
is absent or when its directory string is empty (falsy), matching `||`. -/
def amendedResolveDir (m : VariantMap) (v : TemplateVariant) : String :=
  match variantLookup m v with
  | some d => if d.dir = "" then m.full.dir else d.dir
  | none => m.full.dir

/-- The amended flow-level resolution rule. -/
def amendedGetTemplateDir (t : Template) (v : TemplateVariant) (useMonorepo : Bool) : String :=
  match useMonorepo, t.monorepo with
  | true, some m => amendedResolveDir m v
  | _, _ => amendedResolveDir t.variants v

/-- The `TEMPLATES` constant from `create.ts`: the TypeScript-library
descriptor. -/
def tsLibTemplate : Template :=
  { type := "typescript"
    defaultName := "my-ts-lib"
    name := "TypeScript Library"
    description := "A modern TypeScript library template"
    variants := ⟨some ⟨"ts-lib-basic"⟩, ⟨"ts-lib"⟩⟩
    monorepo := some ⟨some ⟨"ts-lib-monorepo-basic"⟩, ⟨"ts-lib-monorepo"⟩⟩
    placeholders :=
      [("GITHUB_USERNAME", "username"), ("GITHUB_REPO", "repo-name"),
        ("MONOREPO_FIRST_PACKAGE", "package-1"), ("DEFAULT_NAME", "my-ts-lib")] }

/-- The `TEMPLATES` constant from `create.ts`: the React-library descriptor
(no monorepo mapping). -/
def reactLibTemplate : Template :=
  { type := "react"
    defaultName := "my-react-lib"
    name := "React Library"
    description := "A modern React component library template"
    variants := ⟨some ⟨"react-lib-basic"⟩, ⟨"react-lib"⟩⟩
    monorepo := none
    placeholders :=
      [("GITHUB_USERNAME", "username"), ("GITHUB_REPO", "repo-name"),
        ("MONOREPO_FIRST_PACKAGE", "package-1"), ("DEFAULT_NAME", "my-react-lib")] }

/-- `TEMPLATES` from `create.ts`. -/
def TEMPLATES : List Template := [tsLibTemplate, reactLibTemplate]

/-! ### Create flow: project-name collection (`create.ts`) -/

/-- `path.join(process.cwd(), projectName)` from `getProjectPath`. -/
def getProjectPath (cwd projectName : String) : String :=
  cwd ++ "/" ++ projectName

/-- The project-name prompt validator from `createProject` (`create.ts`):
`!value` rejects the empty string, `value.includes(' ')` rejects a space
character, `pathExistsSync(getProjectPath(value))` rejects a collision;
returning `none` lets the prompt accept the value.  Filesystem existence is
abstracted as the boolean function `pathExists`. -/
def validateProjectName (pathExists : String → Bool) (cwd : String)
    (value : String) : Option String :=
  if value = "" then some "Project name is required"
  else if value.data.contains ' ' then some "Project name cannot contain spaces"
  else if pathExists (getProjectPath cwd value) then some "Project already exists"
  else none

/-- A validated text prompt run against the user's successive answers: an
answer the validator rejects (with a message) re-prompts, the first accepted
answer is returned.  `none` models a run in which no answer was ever
accepted. -/
def runTextPrompt (validate : String → Option String) : List String → Option String
  | [] => none
  | v :: rest => if validate v = none then some v else runTextPrompt validate rest

/-- `projectNameFromCli || (await text({...}))` from `createProject`: a
truthy (non-empty) CLI positional is used as-is, bypassing the prompt and
its validator. -/
def chooseProjectName (projectNameFromCli : Option String) (promptedName : String) : String :=
  match projectNameFromCli with
  | some s => if s = "" then promptedName else s
  | none => promptedName

/-! ### Init flow: collection loops (`init.ts`) -/

/-- `WorkspacePackage` from `init.ts`. -/
structure WorkspacePackage where
  name : String
  root : String
  entryFiles : List String
  outputFormats : List String
deriving DecidableEq

/-- The entry-file collection loop (`collectEntryFiles`, and the loop body of
`collectEntryFilesForPackage`): each iteration first appends one accepted
entry file, then asks "add another?".  A response is the accepted entry
together with that answer; the loop ends at the first `false`.  An empty
response list stands for a run that never completes the first prompt — any
completed run consumes at least one response. -/
def collectEntryFiles : List (String × Bool) → List String
  | [] => []
  | (entryFile, shouldAddMore) :: rest =>
      entryFile :: (if shouldAddMore then collectEntryFiles rest else [])

/-- One loop iteration's worth of answers for `collectWorkspacePackages`:
the accepted package name and root, the nested entry-file responses, the
selected output formats, and the answer to "add another package?". -/
structure PackageResponse where
  name : String
  root : String
  entryResponses : List (String × Bool)
  outputFormats : List String
  addMore : Bool
deriving DecidableEq

/-- The package collection loop (`collectWorkspacePackages` from `init.ts`):
each iteration pushes one package — built from the accepted name, root, the
nested entry-file loop and the format multiselect — then asks "add another
package?". -/
def collectWorkspacePackages : List PackageResponse → List WorkspacePackage
  | [] => []
  | r :: rest =>
      ⟨r.name, r.root, collectEntryFiles r.entryResponses, r.outputFormats⟩ ::
        (if r.addMore then collectWorkspacePackages rest else [])

/-! ### Init flow: configuration renderers (`init.ts`) -/

/-- `createConfigFileContent` from `init.ts`, with the source's template
literals written out as explicit concatenations (tabs and newlines as in the
file). -/
def createConfigFileContent (entryFiles outputFormats plugins : List String) : String :=
  let pluginImports :=
    if plugins.length > 0 then String.intercalate ", " (plugins.map (fun plugin => plugin))
    else ""
  let pluginsConfig :=
    if plugins.length > 0 then
      ",\n\tplugins: [" ++
        String.intercalate ", " (plugins.map (fun plugin => plugin ++ "()")) ++ "],"
    else ""
  let imports :=
    if plugins.length > 0 then
      "import { defineConfig } from 'bunup'\nimport \x7b " ++ pluginImports ++
        " \x7d from 'bunup/plugins'"
    else "import { defineConfig } from 'bunup'"
  imports ++ "\n\nexport default defineConfig(\x7b\n\tentry: [" ++
    String.intercalate ", " (entryFiles.map (fun file => "'" ++ file ++ "'")) ++
    "],\n\tformat: [" ++
    String.intercalate ", " (outputFormats.map (fun format => "'" ++ format ++ "'")) ++
    "]," ++ pluginsConfig ++ "\n\x7d)\n"

/-- One per-package block of the workspace configuration
(`createWorkspaceConfigFileContent`'s `.map` body). -/
def packageBlock (pkg : WorkspacePackage) : String :=
  "  \x7b\n    name: '" ++ pkg.name ++ "',\n    root: '" ++ pkg.root ++
    "',\n    config: \x7b\n      entry: [" ++
    String.intercalate ", " (pkg.entryFiles.map (fun file => "'" ++ file ++ "'")) ++
    "],\n      format: [" ++
    String.intercalate ", " (pkg.outputFormats.map (fun format => "'" ++ format ++ "'")) ++
    "],\n    \x7d,\n  \x7d"

/-- `createWorkspaceConfigFileContent` from `init.ts`. -/
def createWorkspaceConfigFileContent (workspacePackages : List WorkspacePackage)
    (plugins : List String) : String :=
  let packagesConfig := String.intercalate ",\n" (workspacePackages.map packageBlock)
  let pluginImports :=
    if plugins.length > 0 then String.intercalate ", " (plugins.map (fun plugin => plugin))
    else ""
  let pluginsConfig :=
    if plugins.length > 0 then
      ",\n  \x7b\n    // Shared configuration applied to all packages\n    plugins: [" ++
        String.intercalate ", " (plugins.map (fun plugin => plugin ++ "()")) ++ "],\n  \x7d"
    else ""
  let imports :=
    if plugins.length > 0 then
      "import { defineWorkspace } from 'bunup'\nimport \x7b " ++ pluginImports ++
        " \x7d from 'bunup/plugins'"
    else "import { defineWorkspace } from 'bunup'"
  imports ++ "\n\nexport default defineWorkspace([\n" ++ packagesConfig ++ "\n]" ++
    pluginsConfig ++ ")\n"

/-- Bool test that `pat` occurs as a contiguous substring of `s`
(over the character lists). -/
def charListHasInfix (pat : List Char) : List Char → Bool
  | [] => pat.isEmpty
  | c :: rest => pat.isPrefixOf (c :: rest) || charListHasInfix pat rest

/-- `strContainsB s pat = true` iff `pat` occurs inside `s`. -/
def strContainsB (s pat : String) : Bool :=
  charListHasInfix pat.data s.data

/-! ### Claim theorems: create flow and init collection/rendering -/

/-- C8: both configuration renderers emit the plugin import line and the
plugins block if and only if at least one plugin was selected.  With zero
plugins the rendered text is exactly the plugin-free form (single import
line, no plugins key anywhere); with at least one plugin the output is
exactly the same text extended by the `bunup/plugins` import line and the
`plugins: [...]` block.  At the spec's example input (entry
`["src/index.ts"]`, formats `["esm","cjs"]`, zero plugins) the output is the
golden string containing exactly the one quoted entry, both quoted format
tags, and no occurrence of `plugins` at all. -/
theorem config_renderer_plugin_iff (entryFiles outputFormats plugins : List String)
    (workspacePackages : List WorkspacePackage) (hp : plugins ≠ []) :
    createConfigFileContent entryFiles outputFormats [] =
      "import { defineConfig } from 'bunup'" ++
      "\n\nexport default defineConfig(\x7b\n\tentry: [" ++
      String.intercalate ", " (entryFiles.map (fun file => "'" ++ file ++ "'")) ++
      "],\n\tformat: [" ++
      String.intercalate ", " (outputFormats.map (fun format => "'" ++ format ++ "'")) ++
      "],\n\x7d)\n"
    ∧ createConfigFileContent entryFiles outputFormats plugins =
      "import { defineConfig } from 'bunup'\nimport \x7b " ++
      String.intercalate ", " plugins ++ " \x7d from 'bunup/plugins'" ++
      "\n\nexport default defineConfig(\x7b\n\tentry: [" ++
      String.intercalate ", " (entryFiles.map (fun file => "'" ++ file ++ "'")) ++
      "],\n\tformat: [" ++
      String.intercalate ", " (outputFormats.map (fun format => "'" ++ format ++ "'")) ++
      "]," ++ (",\n\tplugins: [" ++
        String.intercalate ", " (plugins.map (fun plugin => plugin ++ "()")) ++ "],") ++
      "\n\x7d)\n"
    ∧ createWorkspaceConfigFileContent workspacePackages [] =
      "import { defineWorkspace } from 'bunup'" ++
      "\n\nexport default defineWorkspace([\n" ++
      String.intercalate ",\n" (workspacePackages.map packageBlock) ++ "\n])\n"
    ∧ createWorkspaceConfigFileContent workspacePackages plugins =
      "import { defineWorkspace } from 'bunup'\nimport \x7b " ++
      String.intercalate ", " plugins ++ " \x7d from 'bunup/plugins'" ++
      "\n\nexport default defineWorkspace([\n" ++
      String.intercalate ",\n" (workspacePackages.map packageBlock) ++ "\n]" ++
      (",\n  \x7b\n    // Shared configuration applied to all packages\n    plugins: [" ++
        String.intercalate ", " (plugins.map (fun plugin => plugin ++ "()")) ++ "],\n  \x7d") ++
      ")\n"
    ∧ createConfigFileContent ["src/index.ts"] ["esm", "cjs"] [] =
      "import { defineConfig } from 'bunup'\n\nexport default defineConfig(\x7b\n\tentry: ['src/index.ts'],\n\tformat: ['esm', 'cjs'],\n\x7d)\n"
    ∧ strContainsB (createConfigFileContent ["src/index.ts"] ["esm", "cjs"] []) "plugins"
        = false
    ∧ strContainsB (createConfigFileContent ["src/index.ts"] ["esm", "cjs"] [])
        "'src/index.ts'" = true
    ∧ strContainsB (createConfigFileContent ["src/index.ts"] ["esm", "cjs"] []) "'esm'"
        = true
    ∧ strContainsB (createConfigFileContent ["src/index.ts"] ["esm", "cjs"] []) "'cjs'"
        = true := by
  have hl : plugins.length > 0 := List.length_pos.mpr hp
  refine ⟨?_, ?_, ?_, ?_, by rfl, by decide, by decide, by decide, by decide⟩
  · simp [createConfigFileContent, String.append_assoc, String.append_empty,
      String.empty_append]
  · simp [createConfigFileContent, hl, String.append_assoc, String.append_empty,
      String.empty_append]
  · simp [createWorkspaceConfigFileContent, String.append_assoc, String.append_empty,
      String.empty_append]
  · simp [createWorkspaceConfigFileContent, hl, String.append_assoc, String.append_empty,
      String.empty_append]

/-- Witness for C8, applying the theorem with one selected plugin
(`exports`): the rendered single-package configuration carries both the
plugin import line and the plugins block. -/
theorem config_renderer_plugin_iff_w :
    (["exports"] : List String) ≠ []
    ∧ createConfigFileContent ["src/index.ts"] ["esm", "cjs"] ["exports"] =
      "import { defineConfig } from 'bunup'\nimport \x7b " ++
      String.intercalate ", " ["exports"] ++ " \x7d from 'bunup/plugins'" ++
      "\n\nexport default defineConfig(\x7b\n\tentry: [" ++
      String.intercalate ", " (["src/index.ts"].map (fun file => "'" ++ file ++ "'")) ++
      "],\n\tformat: [" ++
      String.intercalate ", " (["esm", "cjs"].map (fun format => "'" ++ format ++ "'")) ++
      "]," ++ (",\n\tplugins: [" ++
        String.intercalate ", " (["exports"].map (fun plugin => plugin ++ "()")) ++ "],") ++
      "\n\x7d)\n" :=
  ⟨by decide,
    (config_renderer_plugin_iff ["src/index.ts"] ["esm", "cjs"] ["exports"] []
      (by decide)).2.1⟩

/-- C6 counterexample: the workspace-mode script pair and the single-package
script pair are NOT textually distinct — `createWorkspaceBuildScripts` and
`createBuildScripts` return the identical pair. -/
theorem build_scripts_pairs_identical :
    createWorkspaceBuildScripts = createBuildScripts := rfl

/-- C6 (amended): the pair of script entries to install is the same fixed
pair `build ↦ "bunup"`, `dev ↦ "bunup --watch"` in both workspace mode and
single-package mode; it does not depend on the mode at all. -/
theorem build_scripts_fixed_pair :
    createBuildScripts = [("build", "bunup"), ("dev", "bunup --watch")]
    ∧ createWorkspaceBuildScripts = [("build", "bunup"), ("dev", "bunup --watch")] :=
  ⟨rfl, rfl⟩

/-- C7 counterexample: a descriptor whose monorepo `basic` entry is present
but has the empty string as its directory.  The spec's rule ("fall back only
when the variant key is absent") yields `""`; the code's `||` also falls back
on the empty (falsy) string and yields the `full` directory. -/
theorem template_dir_fallback_counterexample :
    getTemplateDir
        { tsLibTemplate with monorepo := some ⟨some ⟨""⟩, ⟨"ts-lib-monorepo"⟩⟩ }
        TemplateVariant.basic true = "ts-lib-monorepo"
    ∧ specGetTemplateDir
        { tsLibTemplate with monorepo := some ⟨some ⟨""⟩, ⟨"ts-lib-monorepo"⟩⟩ }
        TemplateVariant.basic true = ""
    ∧ getTemplateDir
        { tsLibTemplate with monorepo := some ⟨some ⟨""⟩, ⟨"ts-lib-monorepo"⟩⟩ }
        TemplateVariant.basic true
      ≠ specGetTemplateDir
        { tsLibTemplate with monorepo := some ⟨some ⟨""⟩, ⟨"ts-lib-monorepo"⟩⟩ }
        TemplateVariant.basic true := by decide

/-- C7 (amended): template-directory resolution picks the monorepo mapping
exactly when monorepo was chosen and the descriptor defines one, and within
the chosen mapping falls back from the selected variant to `full` when the
variant key is absent OR its directory string is empty (JavaScript `||`);
on the repository's actual descriptors (whose directories are all non-empty)
this coincides with the spec's absence-only fallback rule. -/
theorem template_dir_fallback (t : Template) (v : TemplateVariant) (b : Bool) :
    getTemplateDir t v b = amendedGetTemplateDir t v b
    ∧ (t ∈ TEMPLATES → getTemplateDir t v b = specGetTemplateDir t v b) := by
  constructor
  · cases b with
    | false =>
        cases hv : variantLookup t.variants v with
        | none => simp [getTemplateDir, amendedGetTemplateDir, amendedResolveDir, jsOrDir, hv]
        | some d => simp [getTemplateDir, amendedGetTemplateDir, amendedResolveDir, jsOrDir, hv]
    | true =>
        cases hm : t.monorepo with
        | none =>
            cases hv : variantLookup t.variants v with
            | none =>
                simp [getTemplateDir, amendedGetTemplateDir, amendedResolveDir, jsOrDir, hm, hv]
            | some d =>
                simp [getTemplateDir, amendedGetTemplateDir, amendedResolveDir, jsOrDir, hm, hv]
        | some m =>
            cases hv : variantLookup m v with
            | none =>
                simp [getTemplateDir, amendedGetTemplateDir, amendedResolveDir, jsOrDir, hm, hv]
            | some d =>
                simp [getTemplateDir, amendedGetTemplateDir, amendedResolveDir, jsOrDir, hm, hv]
  · intro ht
    rcases List.mem_cons.mp ht with h | h
    · subst h
      cases v <;> cases b <;> decide
    · have h2 : t = reactLibTemplate := by simpa using h
      subst h2
      cases v <;> cases b <;> decide

/-- Witness for C7 (amended), applying it to the TypeScript descriptor with
variant `basic` and monorepo chosen. -/
theorem template_dir_fallback_w :
    tsLibTemplate ∈ TEMPLATES
    ∧ getTemplateDir tsLibTemplate TemplateVariant.basic true
        = specGetTemplateDir tsLibTemplate TemplateVariant.basic true :=
  ⟨by simp [TEMPLATES],
    (template_dir_fallback tsLibTemplate TemplateVariant.basic true).2
      (by simp [TEMPLATES])⟩

/-- C9 counterexample: the validator rejects only the space character, not
whitespace in general — a tab-containing name passes validation and the flow
proceeds with it — and a name supplied as the CLI positional (here one that
even contains a space) bypasses validation entirely. -/
theorem project_name_validation_counterexample :
    runTextPrompt (validateProjectName (fun _ => false) "/cwd") ["my\tlib"] = some "my\tlib"
    ∧ ("my\tlib").data.any Char.isWhitespace = true
    ∧ chooseProjectName (some "my lib") "fallback" = "my lib"
    ∧ ("my lib").data.contains ' ' = true := by decide

/-- C9 (amended): every project name accepted by the interactive prompt's
validator is non-empty, contains no space character (other whitespace is not
checked), and does not collide with an existing path at the target location;
each violation re-prompts with its specific message rather than aborting.
A non-empty project name supplied as the CLI positional bypasses these
checks and is used as-is. -/
theorem project_name_validation (pathExists : String → Bool) (cwd value : String) :
    (validateProjectName pathExists cwd value = none ↔
      value ≠ "" ∧ value.data.contains ' ' = false
        ∧ pathExists (getProjectPath cwd value) = false)
    ∧ (value = "" →
        validateProjectName pathExists cwd value = some "Project name is required")
    ∧ (value ≠ "" → value.data.contains ' ' = true →
        validateProjectName pathExists cwd value = some "Project name cannot contain spaces")
    ∧ (value ≠ "" → value.data.contains ' ' = false →
        pathExists (getProjectPath cwd value) = true →
        validateProjectName pathExists cwd value = some "Project already exists")
    ∧ (∀ answers accepted,
        runTextPrompt (validateProjectName pathExists cwd) answers = some accepted →
          validateProjectName pathExists cwd accepted = none)
    ∧ (∀ s fallbackName, s ≠ "" → chooseProjectName (some s) fallbackName = s) := by
  refine ⟨?_, ?_, ?_, ?_, ?_, ?_⟩
  · by_cases h1 : value = ""
    · simp [validateProjectName, h1]
    · cases h2 : value.data.contains ' ' with
      | true =>
          have h2' : ' ' ∈ value.data := by simpa using h2
          simp [validateProjectName, h1, h2, h2']
      | false =>
          have h2' : ' ' ∉ value.data := by simpa using h2
          cases h3 : pathExists (getProjectPath cwd value) with
          | true => simp [validateProjectName, h1, h2, h2', h3]
          | false => simp [validateProjectName, h1, h2, h2', h3]
  · intro h1
    simp [validateProjectName, h1]
  · intro h1 h2
    have h2' : ' ' ∈ value.data := by simpa using h2
    simp [validateProjectName, h1, h2']
  · intro h1 h2 h3
    have h2' : ' ' ∉ value.data := by simpa using h2
    simp [validateProjectName, h1, h2', h3]
  · intro answers
    induction answers with
    | nil => intro accepted h; simp [runTextPrompt] at h
    | cons v rest ih =>
        intro accepted h
        by_cases hv : validateProjectName pathExists cwd v = none
        · rw [runTextPrompt, if_pos hv] at h
          cases h
          exact hv
        · rw [runTextPrompt, if_neg hv] at h
          exact ih accepted h
  · intro s fallbackName hs
    simp [chooseProjectName, hs]

/-- Witness for C9 (amended): each validation message at a concrete input,
plus the CLI bypass. -/
theorem project_name_validation_w :
    validateProjectName (fun _ => false) "/cwd" "" = some "Project name is required"
    ∧ validateProjectName (fun _ => false) "/cwd" "my lib"
        = some "Project name cannot contain spaces"
    ∧ validateProjectName (fun p => p == "/cwd/taken") "/cwd" "taken"
        = some "Project already exists"
    ∧ chooseProjectName (some "cli-name") "prompted" = "cli-name" :=
  ⟨(project_name_validation (fun _ => false) "/cwd" "").2.1 rfl,
    (project_name_validation (fun _ => false) "/cwd" "my lib").2.2.1
      (by decide) (by decide),
    (project_name_validation (fun p => p == "/cwd/taken") "/cwd" "taken").2.2.2.1
      (by decide) (by decide) (by decide),
    (project_name_validation (fun _ => false) "/cwd" "x").2.2.2.2.2
      "cli-name" "prompted" (by decide)⟩

/-- C10: every collection loop appends its item before asking whether to
stop, so any completed run (one that answers the first prompt at least once)
produces a non-empty list: the single-package entry-file list is non-empty,
the workspace package list is non-empty, and every collected package's
entry-file list is non-empty — the empty collection is unreachable at the
renderer's input. -/
theorem collection_loops_nonempty (rs : List (String × Bool))
    (prs : List PackageResponse) :
    (rs ≠ [] → collectEntryFiles rs ≠ [])
    ∧ (prs ≠ [] → collectWorkspacePackages prs ≠ [])
    ∧ ((∀ r ∈ prs, r.entryResponses ≠ []) →
        ∀ pkg ∈ collectWorkspacePackages prs, pkg.entryFiles ≠ []) := by
  refine ⟨?_, ?_, ?_⟩
  · intro h
    cases rs with
    | nil => exact absurd rfl h
    | cons r rest =>
        obtain ⟨entryFile, shouldAddMore⟩ := r
        simp [collectEntryFiles]
  · intro h
    cases prs with
    | nil => exact absurd rfl h
    | cons r rest => simp [collectWorkspacePackages]
  · induction prs with
    | nil =>
        intro _ pkg hmem
        simp [collectWorkspacePackages] at hmem
    | cons r rest ih =>
        intro h pkg hmem
        simp only [collectWorkspacePackages] at hmem
        rcases List.mem_cons.mp hmem with hh | ht
        · have hr : r.entryResponses ≠ [] := h r (List.mem_cons_self r rest)
          rw [hh]
          show collectEntryFiles r.entryResponses ≠ []
          cases hre : r.entryResponses with
          | nil => exact absurd hre hr
          | cons e es =>
              obtain ⟨entryFile, shouldAddMore⟩ := e
              simp [collectEntryFiles]
        · by_cases hm : r.addMore = true
          · simp only [hm, if_true] at ht
            exact ih (fun q hq => h q (List.mem_cons_of_mem r hq)) pkg ht
          · rw [Bool.not_eq_true] at hm
            simp [hm] at ht

/-- Witness for C10: one entry-file response and one package response; both
collections are non-empty and the package's entry list is non-empty. -/
theorem collection_loops_nonempty_w :
    collectEntryFiles [("src/index.ts", false)] ≠ []
    ∧ collectWorkspacePackages
        [⟨"core", "packages/core", [("src/index.ts", false)], ["esm"], false⟩] ≠ []
    ∧ ∀ pkg ∈ collectWorkspacePackages
        [⟨"core", "packages/core", [("src/index.ts", false)], ["esm"], false⟩],
        pkg.entryFiles ≠ [] :=
  ⟨(collection_loops_nonempty [("src/index.ts", false)]
      [⟨"core", "packages/core", [("src/index.ts", false)], ["esm"], false⟩]).1
      (by decide),
    (collection_loops_nonempty [("src/index.ts", false)]
      [⟨"core", "packages/core", [("src/index.ts", false)], ["esm"], false⟩]).2.1
      (by decide),
    (collection_loops_nonempty [("src/index.ts", false)]
      [⟨"core", "packages/core", [("src/index.ts", false)], ["esm"], false⟩]).2.2
      (by decide)⟩

end BunupCli
